import Mathlib

/-!
Shallow embedding of the PlaidML OpenVINO bridge program builder
(`plaidml/bridge/openvino/plaidml_builder.cpp`).

The builder walks the nGraph function's ordered ops, dispatching each node by
its `description()` string to one of four translators (Constant, Parameter,
Result, generic op), maintaining three maps:
  * `tensorMap`        : (producer node name, output index) -> edsl tensor
  * `tensorIONameMap`  : OpenVINO I/O name -> edsl tensor
  * `updateDependenciesNameMap` : (name, index) -> redirected name

C++ `std::map::at` throwing `std::out_of_range` is modelled as a
`dependencyNotFound` / `unboundIO` error (the spec's taxonomy names for those
throw sites); `std::map::operator[]` on a missing Inference-Engine I/O entry,
which default-constructs a null shared pointer that is then dereferenced, and
out-of-bounds `std::vector::operator[]` are modelled as a distinguished
`undefinedBehavior` outcome, separate from every taxonomy error.

Element types carried by tensors are opaque tags (`DType`); double-valued
attribute payloads are opaque bit patterns (`Nat`) since the builder only
moves them, never computes with them.
-/

set_option autoImplicit false

namespace PlaidMLPlugin

/-- Element-type tags (`plaidml::DType` / nGraph element types / IE precisions,
identified through the bridge's `to_plaidml` conversions). -/
inductive DType where
  | i8 | i16 | i32 | i64
  | u8 | u16 | u32 | u64
  | f16 | f32 | f64
  | boolean
  deriving DecidableEq, Repr

/-- Byte width of an element type (used for buffer-size validation). -/
def DType.byteWidth : DType → Nat
  | .i8 => 1 | .i16 => 2 | .i32 => 4 | .i64 => 8
  | .u8 => 1 | .u16 => 2 | .u32 => 4 | .u64 => 8
  | .f16 => 2 | .f32 => 4 | .f64 => 8
  | .boolean => 1

/-- Element kind tag of a homogeneous attribute sequence. -/
inductive SeqKind where
  | str | f32 | f64 | i8 | i16 | i32 | i64 | u8 | u16 | u32 | u64
  deriving DecidableEq, Repr

/-- A `plaidml::edsl::Value` as stored into an attribute `Dictionary`:
scalars tagged by kind, or a tuple built by `make_tuple`.  Double payloads are
opaque bit patterns. -/
inductive EValue where
  | boolVal (b : Bool)
  | intVal (n : Int)
  | doubleVal (bits : Nat)
  | strTuple (xs : List String)
  | numTuple (kind : SeqKind) (xs : List Int)
  deriving DecidableEq, Repr

/-- An nGraph attribute payload as it reaches `AttributeVisitor::on_adapter`,
tagged by which overload receives it. -/
inductive AttrVal where
  | voidA
  | strA (s : String)
  | boolA (b : Bool)
  | i64A (n : Int)
  | doubleA (bits : Nat)
  | strVecA (xs : List String)
  | numVecA (kind : SeqKind) (xs : List Int)
  | voidPtrA
  deriving DecidableEq, Repr

/-- Build errors; the constructors follow the spec's taxonomy.
`assertionFailed` stands for a failing `IE_ASSERT` not named by the taxonomy,
`outOfRange` for a throwing nGraph accessor, and `undefinedBehavior` for an
out-of-bounds `std::vector::operator[]` or a null-pointer dereference - the
C++ has no defined behavior there, so the model gives those sites an outcome
distinct from every taxonomy error. -/
inductive BuildError where
  | unsupportedOperator (kind : String)
  | unsupportedAttributeKind (name : String)
  | shapeMismatch
  | dependencyNotFound
  | outputArityMismatch
  | unboundIO
  | assertionFailed
  | outOfRange
  | undefinedBehavior
  deriving DecidableEq, Repr

instance {ε α : Type} [DecidableEq ε] [DecidableEq α] : DecidableEq (Except ε α) :=
  fun a b =>
    match a, b with
    | .error e, .error e' =>
      if h : e = e' then .isTrue (h ▸ rfl)
      else .isFalse (fun hh => h (by injection hh))
    | .error _, .ok _ => .isFalse (fun hh => Except.noConfusion hh)
    | .ok _, .error _ => .isFalse (fun hh => Except.noConfusion hh)
    | .ok v, .ok v' =>
      if h : v = v' then .isTrue (h ▸ rfl)
      else .isFalse (fun hh => h (by injection hh))

/-- A `plaidml::edsl::Tensor` handle, as an expression recording how the
builder constructed it. `builderOut` stands for a handle produced inside an
external operator builder. -/
inductive Tensor where
  | constant (dtype : DType) (dims : List Int) (data : List Nat) (name : String)
  | placeholder (dtype : DType) (dims : List Int) (name : String)
  | cast (src : Tensor) (dtype : DType)
  | reshape (src : Tensor) (dims : List Int)
  | builderOut (dtype : DType) (tag : Nat)
  deriving DecidableEq, Repr

/-- `Tensor::dtype()`: the element type the handle reports. -/
def Tensor.dtype : Tensor → DType
  | .constant d _ _ _ => d
  | .placeholder d _ _ => d
  | .cast _ d => d
  | .reshape t _ => t.dtype
  | .builderOut d _ => d

/-- Lookup in an association-list model of `std::map` (first matching key). -/
def mapFind {α β : Type} [DecidableEq α] : List (α × β) → α → Option β
  | [], _ => none
  | (k, v) :: rest, a => if k = a then some v else mapFind rest a

/-- Insert-or-assign in an association-list model of `std::map` (the map keeps
one entry per key). -/
def mapInsert {α β : Type} [DecidableEq α] : List (α × β) → α → β → List (α × β)
  | [], a, b => [(a, b)]
  | (k, v) :: rest, a, b =>
    if k = a then (k, b) :: rest else (k, v) :: mapInsert rest a b

/-- What an nGraph `Output<Node>` edge exposes of its producer:
`get_node()->get_name()`, `get_node()->get_friendly_name()`,
`get_node()->get_output_size()` and `get_index()`. -/
structure OutputRef where
  srcName : String
  srcFriendly : String
  srcOutputSize : Nat
  index : Nat
  deriving DecidableEq, Repr

/-- The observable fields of an nGraph node as the builder reads them. `users`
lists the kind tags of the node's consumers in `get_users()` order; `data` is
a Constant's embedded byte buffer. -/
structure Node where
  name : String
  friendlyName : String
  description : String
  elementType : DType
  shape : List Nat
  inputs : List OutputRef
  outputSize : Nat
  users : List String
  data : List Nat
  attrs : List (String × AttrVal)
  deriving DecidableEq, Repr

/-- An Inference-Engine tensor descriptor: host-declared dims and precision. -/
structure TensorDesc where
  dims : List Nat
  precision : DType
  deriving DecidableEq, Repr

/-- The host network as the builder consumes it.  Modelled from the spec: the
`InferenceEngine::ICNNNetwork` input/output info maps are external-collaborator
state not under src/; per the spec they expose "a mapping from declared input
name -> element-type/shape descriptor" iterated "in the order in which the
external network declares them", so they are embedded as association lists in
the host's declared order. -/
structure HostNetwork where
  nodes : List Node
  networkInputs : List (String × TensorDesc)
  networkOutputs : List (String × TensorDesc)

/-- The mutable builder state: the three maps of `ProgramBuilder`. -/
structure BuilderState where
  tensorMap : List ((String × Nat) × Tensor)
  tensorIONameMap : List (String × Tensor)
  updateDependenciesNameMap : List ((String × Nat) × String)
  deriving DecidableEq, Repr

/-- The empty builder state at construction time. -/
def initState : BuilderState := ⟨[], [], []⟩

/-- The attribute `Dictionary` accumulated by `PlaidMLAttributeVisitor`. -/
def Dictionary := List (String × EValue)

instance : DecidableEq Dictionary := by
  unfold Dictionary
  infer_instance

/-- One `on_adapter` dispatch of `PlaidMLAttributeVisitor`: scalar bool /
int64 / double and every supported sequence kind store a tagged value under
the attribute's name; the `std::string` overload has an empty body (the
attribute is dropped); the `void` and `void*` overloads throw, naming the
attribute. -/
def visitAttr (d : Dictionary) (name : String) (v : AttrVal) :
    Except BuildError Dictionary :=
  match v with
  | .voidA => .error (.unsupportedAttributeKind name)
  | .voidPtrA => .error (.unsupportedAttributeKind name)
  | .strA _ => .ok d
  | .boolA b => .ok (mapInsert d name (.boolVal b))
  | .i64A n => .ok (mapInsert d name (.intVal n))
  | .doubleA bits => .ok (mapInsert d name (.doubleVal bits))
  | .strVecA xs => .ok (mapInsert d name (.strTuple xs))
  | .numVecA kind xs => .ok (mapInsert d name (.numTuple kind xs))

/-- The visitor dispatch loop: one `on_adapter` call per attribute, in
attribute-set order, threading the accumulated dictionary. -/
def visitFold : Dictionary → List (String × AttrVal) → Except BuildError Dictionary
  | d, [] => .ok d
  | d, p :: rest => do
    let d' ← visitAttr d p.1 p.2
    visitFold d' rest

/-- `node->visit_attributes(visitor)`: fold the visitor over the node's
attribute set, starting from the visitor's empty dictionary. -/
def visitAttributes (attrs : List (String × AttrVal)) :
    Except BuildError Dictionary :=
  visitFold [] attrs

/-- `std::vector::operator[]`: in-bounds access yields the element,
out-of-bounds access is undefined behavior. -/
def vecIdx (l : List Int) (i : Nat) : Except BuildError Int :=
  match l.get? i with
  | some v => .ok v
  | none => .error .undefinedBehavior

/-- `node->get_users()[0]` followed by the `as_type` tests: yields the kind
tag of the first user; on an empty user vector the access is undefined
behavior. -/
def firstUser (users : List String) : Except BuildError String :=
  match users.head? with
  | some u => .ok u
  | none => .error .undefinedBehavior

/-- The `dims_reordered` computation of `handleConstant` (lines 166-194):
start from `{dims[0], dims[2], dims[3], dims[1]}`, apply the `dims[1] == 1000`
bias special case, then overwrite wholesale when the first user is a
Convolution, a ReduceMean or Reshape, or a MatMul. -/
def reorderConstDims (dims : List Int) (users : List String) :
    Except BuildError (List Int) := do
  let d0 ← vecIdx dims 0
  let d2 ← vecIdx dims 2
  let d3 ← vecIdx dims 3
  let d1 ← vecIdx dims 1
  let r := [d0, d2, d3, d1]
  let r := if d1 = 1000 then [d0, 1, 1, d1] else r
  let u ← firstUser users
  let r := if u = "Convolution" then [d2, d3, d1, d0] else r
  let r := if u = "ReduceMean" ∨ u = "Reshape" then [1, 1, 1, 2048] else r
  let r := if u = "MatMul" then [d1, d0, 1, 1] else r
  .ok r

/-- `ProgramBuilder::handleConstant`.  The buffer construction and
`Buffer::copy_from` call are Modelled from the spec: `plaidml::Buffer` is
repository code not under src/, and per the spec the literal translator
"fails with ShapeMismatch if the buffer size does not match the declared
shape/type product" and otherwise "bit-for-bit copies the literal bytes". -/
def handleConstant (node : Node) (st : BuilderState) :
    Except BuildError BuilderState := do
  if node.outputSize ≠ 1 then .error .assertionFailed else
  if node.description ≠ "Constant" then .error .assertionFailed else
  if node.data.length ≠ node.shape.prod * node.elementType.byteWidth then
    .error .shapeMismatch
  else do
    let ty := node.elementType
    let dims : List Int := node.shape.map Int.ofNat
    let tensor := Tensor.constant ty dims node.data node.friendlyName
    let st₁ := { st with tensorMap := mapInsert st.tensorMap (node.name, 0) tensor }
    let reordered ← reorderConstDims dims node.users
    let reorder := Tensor.reshape tensor reordered
    .ok { st₁ with
      tensorMap := mapInsert st₁.tensorMap (node.name ++ "_reordered", 0) reorder
      updateDependenciesNameMap :=
        mapInsert st₁.updateDependenciesNameMap (node.name, 0)
          (node.name ++ "_reordered") }

/-- Lookup of a name in an Inference-Engine I/O info map via
`operator[]` followed by `->getTensorDesc()`: a missing name
default-constructs a null shared pointer whose dereference is undefined
behavior. -/
def findIODesc (infoMap : List (String × TensorDesc)) (name : String) :
    Except BuildError TensorDesc :=
  match mapFind infoMap name with
  | some d => Except.ok d
  | none => Except.error BuildError.undefinedBehavior

/-- `ProgramBuilder::handleParameter`.  A placeholder is built at the
host-declared type/shape, cast to the nGraph type iff the types differ, the
cast handle is registered under `(name, 0)`, the uncast placeholder is bound
under the friendly name, and the fixed `{dims[0], dims[2], dims[3], dims[1]}`
reorder redirection is installed. -/
def handleParameter (networkInputs : List (String × TensorDesc)) (node : Node)
    (st : BuilderState) : Except BuildError BuilderState := do
  if node.outputSize ≠ 1 then .error .assertionFailed else do
  let inputDesc ← findIODesc networkInputs node.friendlyName
  let dims : List Int := inputDesc.dims.map Int.ofNat
  let type := inputDesc.precision
  let ng_type := node.elementType
  let tensor := Tensor.placeholder type dims node.friendlyName
  let cast_tensor := if ng_type ≠ type then Tensor.cast tensor ng_type else tensor
  let st₁ := { st with
    tensorMap := mapInsert st.tensorMap (node.name, 0) cast_tensor
    tensorIONameMap := mapInsert st.tensorIONameMap node.friendlyName tensor }
  let d0 ← vecIdx dims 0
  let d2 ← vecIdx dims 2
  let d3 ← vecIdx dims 3
  let d1 ← vecIdx dims 1
  let reorder := Tensor.reshape cast_tensor [d0, d2, d3, d1]
  .ok { st₁ with
    tensorMap := mapInsert st₁.tensorMap (node.name ++ "_reordered", 0) reorder
    updateDependenciesNameMap :=
      mapInsert st₁.updateDependenciesNameMap (node.name, 0)
        (node.name ++ "_reordered") }

/-- `node->input(0).get_source_output()`: the single consumed edge of a
Result node (nGraph throws on an out-of-range input index). -/
def headInput (node : Node) : Except BuildError OutputRef :=
  match node.inputs.head? with
  | some s => Except.ok s
  | none => Except.error BuildError.outOfRange

/-- The OpenVINO name of an output: the producer's friendly name, with the
consumed slot index appended as `".index"` when the producer has more than
one output. -/
def outputName (src : OutputRef) : String :=
  if src.srcOutputSize > 1 then
    src.srcFriendly ++ "." ++ toString src.index
  else src.srcFriendly

/-- `tensorMap.at(...)` in `handleOutput` (line 237): the raw registry
lookup, with no redirection; a missing key throws. -/
def findProducer (st : BuilderState) (key : String × Nat) :
    Except BuildError Tensor :=
  match mapFind st.tensorMap key with
  | some t => Except.ok t
  | none => Except.error BuildError.dependencyNotFound

/-- `ProgramBuilder::handleOutput`: derive the OpenVINO output name from the
producer's friendly name, appending `"." ++ index` when the producer has more
than one output; look the producer up in `tensorMap` (directly, no remap);
cast iff the host-declared precision differs from the tensor's dtype; bind
under the derived name. -/
def handleOutput (networkOutputs : List (String × TensorDesc)) (node : Node)
    (st : BuilderState) : Except BuildError BuilderState := do
  let src ← headInput node
  let name := outputName src
  let outDesc ← findIODesc networkOutputs name
  let requested_prec := outDesc.precision
  let tensor ← findProducer st (src.srcName, src.index)
  let bound :=
    if requested_prec = tensor.dtype then tensor
    else Tensor.cast tensor requested_prec
  .ok { st with tensorIONameMap := mapInsert st.tensorIONameMap name bound }

/-- An external operator builder: given the node (whose attributes the real
builders read through the context) plus the ordered operand handles and the
attribute dictionary, it returns the output handles. -/
def Op := Node → List Tensor → Dictionary → List Tensor

/-- The external operator registry: `OpsRegistry::instance()->resolve`. -/
def Registry := String → Option Op

/-- Effectful map over a list in the `Except` monad, left to right, stopping
at the first error (the C++ `for` loops over `node->inputs()` and over the
network I/O maps). -/
def mapExcept {α β : Type} (f : α → Except BuildError β) :
    List α → Except BuildError (List β)
  | [] => .ok []
  | a :: l => do
    let b ← f a
    let bs ← mapExcept f l
    .ok (b :: bs)

/-- The dependency-update check in `handleOp` (lines 257-259): when
`updateDependenciesNameMap` holds an entry for the key, replace the key's
name component by the redirected name. -/
def redirectKey (st : BuilderState) (dep : String × Nat) : String × Nat :=
  match mapFind st.updateDependenciesNameMap dep with
  | some newName => (newName, dep.2)
  | none => dep

/-- Operand resolution in `handleOp` (lines 252-262): build the dependency
key from the edge, redirect it through `updateDependenciesNameMap` when an
entry exists, then `tensorMap.at`. -/
def resolveDep (st : BuilderState) (dep : String × Nat) :
    Except BuildError Tensor :=
  match mapFind st.tensorMap (redirectKey st dep) with
  | some t => Except.ok t
  | none => Except.error BuildError.dependencyNotFound

/-- The registration loop at the end of `handleOp`: `tensorMap[(name, i)] =
tuple.at(i)` for `i` from `start` upward. -/
def registerOutputs (m : List ((String × Nat) × Tensor)) (name : String) :
    List Tensor → Nat → List ((String × Nat) × Tensor)
  | [], _ => m
  | t :: rest, start => registerOutputs (mapInsert m (name, start) t) name rest (start + 1)

/-- `ProgramBuilder::handleOp`: resolve the operator builder by kind name
(throwing on an unregistered kind), resolve every operand through the remap
and `tensorMap`, run the attribute visitor, invoke the builder, assert the
output count equals the node's declared output arity, and register each
output under `(node name, output index)`. -/
def handleOp (registry : Registry) (node : Node) (st : BuilderState) :
    Except BuildError BuilderState := do
  match registry node.description with
  | none => .error (.unsupportedOperator node.description)
  | some op => do
    let operands ← mapExcept
      (fun input => resolveDep st (input.srcName, input.index)) node.inputs
    let attrsDict ← visitAttributes node.attrs
    let outs := op node operands attrsDict
    if outs.length ≠ node.outputSize then .error .outputArityMismatch
    else .ok { st with tensorMap := registerOutputs st.tensorMap node.name outs 0 }

/-- The dispatch inside `ProgramBuilder::build`'s traversal loop. -/
def processNode (registry : Registry) (networkInputs networkOutputs : List (String × TensorDesc))
    (st : BuilderState) (node : Node) : Except BuildError BuilderState :=
  if node.description = "Constant" then handleConstant node st
  else if node.description = "Parameter" then handleParameter networkInputs node st
  else if node.description = "Result" then handleOutput networkOutputs node st
  else handleOp registry node st

/-- The state after traversing all nodes in the supplied order. -/
def finalState (registry : Registry) (net : HostNetwork) :
    Except BuildError BuilderState :=
  net.nodes.foldlM (processNode registry net.networkInputs net.networkOutputs) initState

/-- The final program: name `"ie"` plus the ordered input and output handles. -/
structure Program where
  progName : String
  inputs : List Tensor
  outputs : List Tensor
  deriving DecidableEq, Repr

/-- `tensorIONameMap.at(name)` at binding time: a missing name is the spec's
UnboundIO condition. -/
def bindIOName (io : List (String × Tensor)) (name : String) :
    Except BuildError Tensor :=
  match mapFind io name with
  | some t => Except.ok t
  | none => Except.error BuildError.unboundIO

/-- `ProgramBuilder::build`: traverse, then resolve every declared input name
and every declared output name through `tensorIONameMap` in the host's
declared order, and package the program. -/
def build (registry : Registry) (net : HostNetwork) : Except BuildError Program := do
  let st ← finalState registry net
  let inputs ← mapExcept (fun kvp => bindIOName st.tensorIONameMap kvp.1) net.networkInputs
  let outputs ← mapExcept (fun kvp => bindIOName st.tensorIONameMap kvp.1) net.networkOutputs
  .ok { progName := "ie", inputs := inputs, outputs := outputs }

/-- Attribute kinds on which the visitor throws (`void` and `void*`). -/
def badAttr : AttrVal → Bool
  | .voidA => true
  | .voidPtrA => true
  | _ => false

/-- The dictionary entry a single attribute contributes: the kind-tagged value
for bool / int64 / double / sequence attributes, nothing for a dropped string
scalar (and nothing for the throwing kinds). -/
def attrEntry : AttrVal → Option EValue
  | .voidA => none
  | .voidPtrA => none
  | .strA _ => none
  | .boolA b => some (.boolVal b)
  | .i64A n => some (.intVal n)
  | .doubleA bits => some (.doubleVal bits)
  | .strVecA xs => some (.strTuple xs)
  | .numVecA kind xs => some (.numTuple kind xs)

/-- The dictionary after one good-kind visitor dispatch: insert the tagged
entry when the attribute contributes one, leave the dictionary unchanged for
a dropped string scalar. -/
def applyAttr (d : Dictionary) (name : String) (v : AttrVal) : Dictionary :=
  match attrEntry v with
  | some e => mapInsert d name e
  | none => d

/-- A registry with no operator builders. -/
def regNone : Registry := fun _ => none

/-- A registry with a single identity-like "Relu" builder returning its
operands unchanged. -/
def regRelu : Registry := fun s =>
  if s = "Relu" then some (fun _ operands _ => operands) else none

/-- Host-declared descriptor used by the concrete example networks. -/
def descIn : TensorDesc := ⟨[1, 2, 3, 4], .f32⟩

/-- The placeholder the example Parameter node constructs. -/
def T0 : Tensor := .placeholder .f32 [1, 2, 3, 4] "in0"

/-- Example Parameter node `p` with friendly name `in0`. -/
def paramNode : Node :=
  ⟨"p", "in0", "Parameter", .f32, [1, 2, 3, 4], [], 1, ["Result"], [], []⟩

/-- Example Result node consuming `(p, 0)`. -/
def resultNode : Node :=
  ⟨"r", "r", "Result", .f32, [], [⟨"p", "in0", 1, 0⟩], 1, [], [], []⟩

/-- The edge reference `(p, 0)` used by the example consumers. -/
def depRef : OutputRef := ⟨"p", "in0", 1, 0⟩

/-- Example operator node of kind "Relu" consuming `(p, 0)`. -/
def reluNode : Node :=
  ⟨"q", "q", "Relu", .f32, [], [depRef], 1, ["Result"], [], []⟩

/-- Example builder state with `(p, 0)` registered to the placeholder. -/
def stP : BuilderState := ⟨[(("p", 0), T0)], [], []⟩

/-- Example network: one Parameter bound to `in0`, one Result reading it back
out under the same OpenVINO name. -/
def netPR : HostNetwork :=
  ⟨[paramNode, resultNode], [("in0", descIn)], [("in0", descIn)]⟩

/-- Example multi-output producer edge: slot 1 of node `m` (alias `mm`),
which has two output slots. -/
def depRef2 : OutputRef := ⟨"m", "mm", 2, 1⟩

/-- Example Result node consuming slot 1 of the two-output producer `m`. -/
def resultNodeM : Node :=
  ⟨"r2", "r2", "Result", .f32, [], [depRef2], 1, [], [], []⟩

/-- Example builder state with `(m, 1)` registered to the placeholder. -/
def stM : BuilderState := ⟨[(("m", 1), T0)], [], []⟩

/-- Example Parameter node whose nGraph element type (f16) differs from the
host-declared precision (f32). -/
def paramNodeCast : Node :=
  ⟨"p", "in0", "Parameter", .f16, [1, 2, 3, 4], [], 1, ["Result"], [], []⟩

/-- Example well-formed Constant node: u8, shape `[1,1,1,2]`, two data bytes,
consumed by a Relu. -/
def constGood : Node :=
  ⟨"c", "c", "Constant", .u8, [1, 1, 1, 2], [], 1, ["Relu"], [7, 8], []⟩

/-- Example Constant node whose byte buffer (one byte) does not match its
shape/type product (two bytes). -/
def constBad : Node :=
  ⟨"c", "c", "Constant", .u8, [1, 1, 1, 2], [], 1, ["Relu"], [7], []⟩

/-- The builder state after translating `constGood` from the empty state. -/
def stCG : BuilderState :=
  ⟨[(("c", 0), .constant .u8 [1, 1, 1, 2] [7, 8] "c"),
    (("c_reordered", 0), .reshape (.constant .u8 [1, 1, 1, 2] [7, 8] "c") [1, 1, 2, 1])],
   [], [(("c", 0), "c_reordered")]⟩

/-- The builder state after traversing `netPR` from the empty state. -/
def stPR : BuilderState :=
  ⟨[(("p", 0), T0), (("p_reordered", 0), .reshape T0 [1, 3, 4, 2])],
   [("in0", T0)], [(("p", 0), "p_reordered")]⟩

/-- Example Constant node of rank 2 (shape `[2, 3]`), below the rank-4
precondition of the reorder computation. -/
def constRank2 : Node :=
  ⟨"c2", "c2", "Constant", .u8, [2, 3], [], 1, ["Relu"], [0, 1, 2, 3, 4, 5], []⟩

/-- Example Constant node of rank 4 with no consumers. -/
def constNoUser : Node :=
  ⟨"c3", "c3", "Constant", .u8, [1, 1, 1, 2], [], 1, [], [7, 8], []⟩

/-- Example Parameter node whose host-declared descriptor has rank 2. -/
def paramRank2 : Node :=
  ⟨"p2", "in2", "Parameter", .f32, [2, 3], [], 1, ["Result"], [], []⟩

/-- Rank-2 host descriptor for `paramRank2`. -/
def descRank2 : TensorDesc := ⟨[2, 3], .f32⟩

theorem mapFind_insert_self {α β : Type} [DecidableEq α]
    (m : List (α × β)) (k : α) (v : β) : mapFind (mapInsert m k v) k = some v := by
  induction m with
  | nil => simp [mapInsert, mapFind]
  | cons p rest ih =>
    obtain ⟨k₀, v₀⟩ := p
    by_cases h : k₀ = k
    · simp [mapInsert, mapFind, h]
    · simp [mapInsert, mapFind, h, ih]

theorem mapFind_insert_ne {α β : Type} [DecidableEq α]
    (m : List (α × β)) (k k' : α) (v : β) (h : k' ≠ k) :
    mapFind (mapInsert m k v) k' = mapFind m k' := by
  have hkk : ¬k = k' := fun hh => h hh.symm
  induction m with
  | nil => simp [mapInsert, mapFind, hkk]
  | cons p rest ih =>
    obtain ⟨k₀, v₀⟩ := p
    by_cases hp : k₀ = k
    · subst hp
      simp [mapInsert, mapFind, hkk]
    · by_cases hk0 : k₀ = k'
      · simp [mapInsert, mapFind, hp, hk0, h]
      · simp [mapInsert, mapFind, hp, hk0, ih]

theorem cast_ne (t : Tensor) : ∀ p : DType, Tensor.cast t p ≠ t := by
  induction t with
  | constant d dims data name => exact fun p h => Tensor.noConfusion h
  | placeholder d dims name => exact fun p h => Tensor.noConfusion h
  | cast s d ih =>
    intro p h
    have h₁ : Tensor.cast s d = s := ((Tensor.cast.injEq _ _ _ _).mp h).1
    exact ih d h₁
  | reshape s dims ih => exact fun p h => Tensor.noConfusion h
  | builderOut d tag => exact fun p h => Tensor.noConfusion h

theorem ne_append_reordered (s : String) : s ≠ s ++ "_reordered" := by
  intro h
  have h' := congrArg String.length h
  rw [String.length_append] at h'
  have hlen : ("_reordered" : String).length = 10 := rfl
  omega

theorem registerOutputs_find_untouched (name : String) (outs : List Tensor) :
    ∀ (m : List ((String × Nat) × Tensor)) (start : Nat) (k : String × Nat),
      (∀ i, i < outs.length → k ≠ (name, start + i)) →
      mapFind (registerOutputs m name outs start) k = mapFind m k := by
  induction outs with
  | nil => intro m start k _; rfl
  | cons t rest ih =>
    intro m start k hk
    have h0 : k ≠ (name, start) := by
      have := hk 0 (Nat.succ_pos _)
      simpa using this
    have hrest : ∀ i, i < rest.length → k ≠ (name, (start + 1) + i) := by
      intro i hi
      have := hk (i + 1) (by simpa using Nat.succ_lt_succ hi)
      simpa [Nat.add_assoc, Nat.add_comm 1 i] using this
    calc mapFind (registerOutputs (mapInsert m (name, start) t) name rest (start + 1)) k
        = mapFind (mapInsert m (name, start) t) k := ih _ _ _ hrest
      _ = mapFind m k := mapFind_insert_ne _ _ _ _ h0

theorem registerOutputs_find_at (name : String) (outs : List Tensor) :
    ∀ (m : List ((String × Nat) × Tensor)) (start i : Nat), i < outs.length →
      mapFind (registerOutputs m name outs start) (name, start + i) = outs.get? i := by
  induction outs with
  | nil => intro m start i hi; exact absurd hi (Nat.not_lt_zero _)
  | cons t rest ih =>
    intro m start i hi
    cases i with
    | zero =>
      have huntouched : ∀ j, j < rest.length → (name, start) ≠ (name, (start + 1) + j) := by
        intro j _ h
        have h2 := ((Prod.mk.injEq _ _ _ _).mp h).2
        omega
      have h1 := registerOutputs_find_untouched name rest
        (mapInsert m (name, start) t) (start + 1) (name, start) huntouched
      show mapFind (registerOutputs (mapInsert m (name, start) t) name rest (start + 1))
          (name, start) = some t
      rw [h1, mapFind_insert_self]
    | succ j =>
      have hj : j < rest.length := Nat.lt_of_succ_lt_succ hi
      have heq : start + (j + 1) = (start + 1) + j := by omega
      show mapFind (registerOutputs (mapInsert m (name, start) t) name rest (start + 1))
          (name, start + (j + 1)) = rest.get? j
      rw [heq]
      exact ih _ _ _ hj

theorem excBindOk {β γ : Type} (b : β) (f : β → Except BuildError γ) :
    (Except.ok b >>= f) = f b := rfl

theorem excBindErr {β γ : Type} (e : BuildError) (f : β → Except BuildError γ) :
    ((Except.error e : Except BuildError β) >>= f) = Except.error e := rfl

theorem mapExcept_nil {α β : Type} (f : α → Except BuildError β) :
    mapExcept f [] = .ok [] := rfl

theorem mapExcept_cons {α β : Type} (f : α → Except BuildError β) (a : α) (l : List α) :
    mapExcept f (a :: l) =
      (f a >>= fun b => mapExcept f l >>= fun bs => Except.ok (b :: bs)) := rfl

theorem mapExcept_ok_forall₂ {α β : Type} (f : α → Except BuildError β) :
    ∀ (l : List α) (ys : List β), mapExcept f l = .ok ys →
      List.Forall₂ (fun x y => f x = .ok y) l ys := by
  intro l
  induction l with
  | nil =>
    intro ys h
    rw [mapExcept_nil] at h
    cases h
    exact List.Forall₂.nil
  | cons a rest ih =>
    intro ys h
    rw [mapExcept_cons] at h
    cases ha : f a with
    | error e =>
      rw [ha, excBindErr] at h
      exact Except.noConfusion h
    | ok b =>
      rw [ha, excBindOk] at h
      cases hrest : mapExcept f rest with
      | error e =>
        rw [hrest, excBindErr] at h
        exact Except.noConfusion h
      | ok bs =>
        rw [hrest, excBindOk] at h
        cases h
        exact List.Forall₂.cons ha (ih bs hrest)

theorem mapExcept_fixed_error {α β : Type} (f : α → Except BuildError β)
    (err : BuildError)
    (hf : ∀ x, (∃ y, f x = .ok y) ∨ f x = .error err) :
    ∀ (l : List α), (∃ x ∈ l, f x = .error err) → mapExcept f l = .error err := by
  intro l
  induction l with
  | nil =>
    rintro ⟨x, hx, _⟩
    exact absurd hx (List.not_mem_nil x)
  | cons a rest ih =>
    rintro ⟨x, hx, hfx⟩
    rcases hf a with ⟨y, hy⟩ | hbad
    · have hxr : x ∈ rest := by
        rcases List.mem_cons.mp hx with rfl | hr
        · rw [hfx] at hy
          exact Except.noConfusion hy
        · exact hr
      rw [mapExcept_cons, hy, excBindOk, ih ⟨x, hxr, hfx⟩, excBindErr]
    · rw [mapExcept_cons, hbad, excBindErr]

theorem visitAttr_good (d : Dictionary) (name : String) (v : AttrVal)
    (h : badAttr v = false) : visitAttr d name v = .ok (applyAttr d name v) := by
  cases v <;> simp_all [badAttr, visitAttr, applyAttr, attrEntry]

theorem visitAttr_bad (d : Dictionary) (name : String) (v : AttrVal)
    (h : badAttr v = true) :
    visitAttr d name v = .error (.unsupportedAttributeKind name) := by
  cases v <;> simp_all [badAttr, visitAttr]

theorem visitFold_cons (d : Dictionary) (p : String × AttrVal)
    (rest : List (String × AttrVal)) :
    visitFold d (p :: rest) =
      (visitAttr d p.1 p.2 >>= fun d' => visitFold d' rest) := rfl

theorem visitFold_total_ok (attrs : List (String × AttrVal))
    (hgood : ∀ p ∈ attrs, badAttr p.2 = false) :
    ∀ d, ∃ d', visitFold d attrs = .ok d' := by
  induction attrs with
  | nil => intro d; exact ⟨d, rfl⟩
  | cons p rest ih =>
    intro d
    have hp := hgood p (List.mem_cons_self p rest)
    have hrest : ∀ q ∈ rest, badAttr q.2 = false :=
      fun q hq => hgood q (List.mem_cons_of_mem p hq)
    obtain ⟨d', hd'⟩ := ih hrest (applyAttr d p.1 p.2)
    exact ⟨d', by rw [visitFold_cons, visitAttr_good d p.1 p.2 hp, excBindOk, hd']⟩

theorem visitFold_untouched (attrs : List (String × AttrVal))
    (hgood : ∀ p ∈ attrs, badAttr p.2 = false) :
    ∀ d d', visitFold d attrs = .ok d' →
      ∀ n, n ∉ attrs.map Prod.fst → mapFind d' n = mapFind d n := by
  induction attrs with
  | nil =>
    intro d d' h n _
    cases h
    rfl
  | cons p rest ih =>
    intro d d' h n hn
    have hp := hgood p (List.mem_cons_self p rest)
    have hrest : ∀ q ∈ rest, badAttr q.2 = false :=
      fun q hq => hgood q (List.mem_cons_of_mem p hq)
    rw [visitFold_cons, visitAttr_good d p.1 p.2 hp, excBindOk] at h
    have hn₁ : n ≠ p.1 := by
      intro hc
      exact hn (by simp [hc])
    have hn₂ : n ∉ rest.map Prod.fst := by
      intro hc
      exact hn (by simp [hc])
    rw [ih hrest _ _ h n hn₂]
    unfold applyAttr
    cases attrEntry p.2 with
    | none => rfl
    | some e => exact mapFind_insert_ne _ _ _ _ hn₁

theorem visitFold_find_some (attrs : List (String × AttrVal))
    (hnodup : (attrs.map Prod.fst).Nodup)
    (hgood : ∀ p ∈ attrs, badAttr p.2 = false) :
    ∀ d d', visitFold d attrs = .ok d' →
      ∀ q ∈ attrs, ∀ e, attrEntry q.2 = some e → mapFind d' q.1 = some e := by
  induction attrs with
  | nil =>
    intro d d' _ q hq
    exact absurd hq (List.not_mem_nil q)
  | cons p rest ih =>
    intro d d' h q hq e he
    have hp := hgood p (List.mem_cons_self p rest)
    have hrest : ∀ r ∈ rest, badAttr r.2 = false :=
      fun r hr => hgood r (List.mem_cons_of_mem p hr)
    rw [visitFold_cons, visitAttr_good d p.1 p.2 hp, excBindOk] at h
    rw [List.map_cons, List.nodup_cons] at hnodup
    rcases List.mem_cons.mp hq with rfl | hqr
    · have huntouched := visitFold_untouched rest hrest _ _ h q.1 hnodup.1
      rw [huntouched]
      unfold applyAttr
      rw [he]
      exact mapFind_insert_self _ _ _
    · exact ih hnodup.2 hrest _ _ h q hqr e he

theorem visitFold_find_none (attrs : List (String × AttrVal))
    (hnodup : (attrs.map Prod.fst).Nodup)
    (hgood : ∀ p ∈ attrs, badAttr p.2 = false) :
    ∀ d d', visitFold d attrs = .ok d' →
      ∀ q ∈ attrs, attrEntry q.2 = none → mapFind d' q.1 = mapFind d q.1 := by
  induction attrs with
  | nil =>
    intro d d' _ q hq
    exact absurd hq (List.not_mem_nil q)
  | cons p rest ih =>
    intro d d' h q hq he
    have hp := hgood p (List.mem_cons_self p rest)
    have hrest : ∀ r ∈ rest, badAttr r.2 = false :=
      fun r hr => hgood r (List.mem_cons_of_mem p hr)
    rw [visitFold_cons, visitAttr_good d p.1 p.2 hp, excBindOk] at h
    rw [List.map_cons, List.nodup_cons] at hnodup
    rcases List.mem_cons.mp hq with rfl | hqr
    · have huntouched := visitFold_untouched rest hrest _ _ h q.1 hnodup.1
      rw [huntouched]
      unfold applyAttr
      rw [he]
    · have hq1 : q.1 ≠ p.1 := by
        intro hc
        exact hnodup.1 (hc ▸ List.mem_map_of_mem Prod.fst hqr)
      rw [ih hnodup.2 hrest _ _ h q hqr he]
      unfold applyAttr
      cases attrEntry p.2 with
      | none => rfl
      | some e => exact mapFind_insert_ne _ _ _ _ hq1

theorem visitFold_bad (attrs : List (String × AttrVal)) :
    ∀ d, (∃ p ∈ attrs, badAttr p.2 = true) →
      ∃ nm v, visitFold d attrs = .error (.unsupportedAttributeKind nm) ∧
        (nm, v) ∈ attrs ∧ badAttr v = true := by
  induction attrs with
  | nil =>
    rintro d ⟨p, hp, _⟩
    exact absurd hp (List.not_mem_nil p)
  | cons p rest ih =>
    rintro d ⟨q, hq, hbadq⟩
    cases hbp : badAttr p.2 with
    | true =>
      refine ⟨p.1, p.2, ?_, by simp, hbp⟩
      rw [visitFold_cons, visitAttr_bad d p.1 p.2 hbp, excBindErr]
    | false =>
      have hqr : q ∈ rest := by
        rcases List.mem_cons.mp hq with rfl | hr
        · rw [hbadq] at hbp
          exact Bool.noConfusion hbp
        · exact hr
      obtain ⟨nm, v, hfold, hmem, hbad⟩ := ih (applyAttr d p.1 p.2) ⟨q, hqr, hbadq⟩
      refine ⟨nm, v, ?_, List.mem_cons_of_mem p hmem, hbad⟩
      rw [visitFold_cons, visitAttr_good d p.1 p.2 hbp, excBindOk, hfold]

theorem mem_keys_mapInsert {α β : Type} [DecidableEq α] (k : α) (v : β) :
    ∀ (m : List (α × β)) (a : α),
      a ∈ (mapInsert m k v).map Prod.fst → a = k ∨ a ∈ m.map Prod.fst := by
  intro m
  induction m with
  | nil =>
    intro a ha
    simp [mapInsert] at ha
    exact Or.inl ha
  | cons p rest ih =>
    intro a ha
    obtain ⟨k₀, v₀⟩ := p
    by_cases hk : k₀ = k
    · subst hk
      rw [show mapInsert ((k₀, v₀) :: rest) k₀ v = (k₀, v) :: rest from by
        simp [mapInsert]] at ha
      rw [List.map_cons] at ha
      rcases List.mem_cons.mp ha with rfl | h
      · exact Or.inl rfl
      · exact Or.inr (by rw [List.map_cons]; exact List.mem_cons_of_mem _ h)
    · rw [show mapInsert ((k₀, v₀) :: rest) k v = (k₀, v₀) :: mapInsert rest k v from by
        simp [mapInsert, hk]] at ha
      rw [List.map_cons] at ha
      rcases List.mem_cons.mp ha with rfl | h
      · exact Or.inr (by rw [List.map_cons]; exact List.mem_cons_self _ _)
      · rcases ih a h with h' | h'
        · exact Or.inl h'
        · exact Or.inr (by rw [List.map_cons]; exact List.mem_cons_of_mem _ h')

theorem mapInsert_keys_nodup {α β : Type} [DecidableEq α] (k : α) (v : β) :
    ∀ (m : List (α × β)), (m.map Prod.fst).Nodup →
      ((mapInsert m k v).map Prod.fst).Nodup := by
  intro m
  induction m with
  | nil => intro _; simp [mapInsert]
  | cons p rest ih =>
    intro h
    obtain ⟨k₀, v₀⟩ := p
    rw [List.map_cons, List.nodup_cons] at h
    by_cases hk : k₀ = k
    · subst hk
      rw [show mapInsert ((k₀, v₀) :: rest) k₀ v = (k₀, v) :: rest from by
        simp [mapInsert]]
      rw [List.map_cons, List.nodup_cons]
      exact h
    · rw [show mapInsert ((k₀, v₀) :: rest) k v = (k₀, v₀) :: mapInsert rest k v from by
        simp [mapInsert, hk]]
      rw [List.map_cons, List.nodup_cons]
      refine ⟨?_, ih h.2⟩
      intro hc
      rcases mem_keys_mapInsert k v rest k₀ hc with rfl | hmem
      · exact hk rfl
      · exact h.1 hmem

theorem visitFold_keys_nodup (attrs : List (String × AttrVal)) :
    ∀ d d', visitFold d attrs = .ok d' →
      (d.map Prod.fst).Nodup → (d'.map Prod.fst).Nodup := by
  induction attrs with
  | nil =>
    intro d d' h hd
    cases h
    exact hd
  | cons p rest ih =>
    intro d d' h hd
    cases hv : visitAttr d p.1 p.2 with
    | error e =>
      rw [visitFold_cons, hv, excBindErr] at h
      exact Except.noConfusion h
    | ok d₁ =>
      rw [visitFold_cons, hv, excBindOk] at h
      have hd₁ : (d₁.map Prod.fst).Nodup := by
        cases hbp : badAttr p.2 with
        | true => rw [visitAttr_bad d p.1 p.2 hbp] at hv; exact Except.noConfusion hv
        | false =>
          rw [visitAttr_good d p.1 p.2 hbp] at hv
          cases hv
          unfold applyAttr
          cases attrEntry p.2 with
          | none => exact hd
          | some e => exact mapInsert_keys_nodup _ _ _ hd
      exact ih d₁ d' h hd₁

/-- C8: for an attribute set with distinct names and no void / void-pointer
attribute, the visitor succeeds and the resulting dictionary holds exactly one
correctly kind-tagged entry per boolean, int64, double, or sequence attribute
under that attribute's name, no entry for a string scalar, and no entry under
any other name (its stored key list is duplicate-free); an attribute of kind
void or void-pointer makes the visitor fail with an error naming a void /
void-pointer attribute of the set. -/
theorem claim_C8_attribute_dictionary :
    (∀ attrs : List (String × AttrVal), (attrs.map Prod.fst).Nodup →
      (∀ p ∈ attrs, badAttr p.2 = false) →
      ∃ d, visitAttributes attrs = .ok d ∧
        (∀ q ∈ attrs, mapFind d q.1 = attrEntry q.2) ∧
        (∀ n, n ∉ attrs.map Prod.fst → mapFind d n = none) ∧
        (d.map Prod.fst).Nodup) ∧
    (∀ attrs : List (String × AttrVal), (∃ p ∈ attrs, badAttr p.2 = true) →
      ∃ nm v, visitAttributes attrs = .error (.unsupportedAttributeKind nm) ∧
        (nm, v) ∈ attrs ∧ badAttr v = true) := by
  constructor
  · intro attrs hnodup hgood
    obtain ⟨d, hd⟩ := visitFold_total_ok attrs hgood []
    refine ⟨d, hd, ?_, ?_, ?_⟩
    · intro q hq
      cases he : attrEntry q.2 with
      | none =>
        rw [visitFold_find_none attrs hnodup hgood _ _ hd q hq he]
        rfl
      | some e => exact visitFold_find_some attrs hnodup hgood _ _ hd q hq e he
    · intro n hn
      rw [visitFold_untouched attrs hgood _ _ hd n hn]
      rfl
    · exact visitFold_keys_nodup attrs _ _ hd List.nodup_nil
  · intro attrs hbad
    exact visitFold_bad attrs [] hbad

/-- Witness for C8: the spec's round-trip example
`{axis : int64 1, keepdims : bool true, scales : float64 sequence [1.0, 2.0]}`
together with a dropped string attribute, and a failing void attribute. -/
theorem claim_C8_witness :
    (∃ d, visitAttributes
        [("axis", .i64A 1), ("keepdims", .boolA true),
         ("scales", .numVecA .f64 [1, 2]), ("mode", .strA "linear")] = .ok d ∧
      (∀ q ∈ [(("axis" : String), AttrVal.i64A 1), ("keepdims", .boolA true),
         ("scales", .numVecA .f64 [1, 2]), ("mode", .strA "linear")],
        mapFind d q.1 = attrEntry q.2) ∧
      (∀ n, n ∉ [("axis" : String), "keepdims", "scales", "mode"] →
        mapFind d n = none) ∧
      (d.map Prod.fst).Nodup) ∧
    (∃ nm v, visitAttributes [(("x" : String), AttrVal.voidA)] =
        .error (.unsupportedAttributeKind nm) ∧
      (nm, v) ∈ [(("x" : String), AttrVal.voidA)] ∧ badAttr v = true) := by
  constructor
  · have h := claim_C8_attribute_dictionary.1
      [("axis", .i64A 1), ("keepdims", .boolA true),
       ("scales", .numVecA .f64 [1, 2]), ("mode", .strA "linear")]
      (by decide) (by decide)
    simpa using h
  · exact claim_C8_attribute_dictionary.2 [("x", .voidA)] ⟨("x", .voidA), by simp, rfl⟩

theorem handleOp_resolved (registry : Registry) (node : Node) (st : BuilderState)
    (op : Op) (h : registry node.description = some op) :
    handleOp registry node st =
      (mapExcept (fun input => resolveDep st (input.srcName, input.index)) node.inputs >>=
        fun operands => visitAttributes node.attrs >>= fun attrsDict =>
          if (op node operands attrsDict).length ≠ node.outputSize then
            .error .outputArityMismatch
          else .ok { st with
            tensorMap := registerOutputs st.tensorMap node.name
              (op node operands attrsDict) 0 }) := by
  unfold handleOp
  rw [h]

theorem resolveDep_ok_or_missing (st : BuilderState) (dep : String × Nat) :
    (∃ t, resolveDep st dep = .ok t) ∨
      resolveDep st dep = .error .dependencyNotFound := by
  unfold resolveDep
  cases h : mapFind st.tensorMap (redirectKey st dep) with
  | none => exact Or.inr rfl
  | some t => exact Or.inl ⟨t, rfl⟩

/-- C7: for an Operator node whose builder resolves, whose operands resolve,
and whose attributes visit cleanly, a builder output count different from the
node's declared output arity aborts with OutputArityMismatch; on success the
output count equals the arity, exactly the keys `(node name, i)` for `i`
below the arity are (re)bound in the tensor registry - the `i`-th to the
builder's `i`-th output - and every other key and the other two tables are
untouched. -/
theorem claim_C7_output_arity (registry : Registry) (node : Node)
    (st : BuilderState) (op : Op) (operands : List Tensor) (d : Dictionary)
    (hop : registry node.description = some op)
    (hoperands : mapExcept (fun input => resolveDep st (input.srcName, input.index))
      node.inputs = .ok operands)
    (hattrs : visitAttributes node.attrs = .ok d) :
    ((op node operands d).length ≠ node.outputSize →
      handleOp registry node st = .error .outputArityMismatch) ∧
    (∀ st', handleOp registry node st = .ok st' →
      (op node operands d).length = node.outputSize ∧
      st'.tensorIONameMap = st.tensorIONameMap ∧
      st'.updateDependenciesNameMap = st.updateDependenciesNameMap ∧
      (∀ i, i < node.outputSize →
        mapFind st'.tensorMap (node.name, i) = (op node operands d).get? i) ∧
      (∀ k, (∀ i, i < node.outputSize → k ≠ (node.name, i)) →
        mapFind st'.tensorMap k = mapFind st.tensorMap k)) := by
  have hrun := handleOp_resolved registry node st op hop
  rw [hoperands, excBindOk, hattrs, excBindOk] at hrun
  constructor
  · intro hne
    rw [hrun, if_pos hne]
  · intro st' hok
    rw [hrun] at hok
    by_cases hne : (op node operands d).length ≠ node.outputSize
    · rw [if_pos hne] at hok
      exact Except.noConfusion hok
    · rw [if_neg hne] at hok
      have hlen : (op node operands d).length = node.outputSize :=
        Decidable.not_not.mp hne
      cases hok
      refine ⟨hlen, rfl, rfl, ?_, ?_⟩
      · intro i hi
        have h := registerOutputs_find_at node.name (op node operands d)
          st.tensorMap 0 i (hlen ▸ hi)
        rw [Nat.zero_add] at h
        exact h
      · intro k hk
        have h := registerOutputs_find_untouched node.name (op node operands d)
          st.tensorMap 0 k (fun i hi => by
            rw [Nat.zero_add]
            exact hk i (hlen ▸ hi))
        exact h

/-- Witness for C7: a one-input "Relu" node over a registry whose Relu builder
echoes its operands; the build step succeeds and registers exactly `(q, 0)`. -/
theorem claim_C7_witness :
    (([T0] : List Tensor).length ≠ reluNode.outputSize →
      handleOp regRelu reluNode stP = .error .outputArityMismatch) ∧
    (∀ st', handleOp regRelu reluNode stP = .ok st' →
      ([T0] : List Tensor).length = reluNode.outputSize ∧
      st'.tensorIONameMap = stP.tensorIONameMap ∧
      st'.updateDependenciesNameMap = stP.updateDependenciesNameMap ∧
      (∀ i, i < reluNode.outputSize →
        mapFind st'.tensorMap (reluNode.name, i) = ([T0] : List Tensor).get? i) ∧
      (∀ k, (∀ i, i < reluNode.outputSize → k ≠ (reluNode.name, i)) →
        mapFind st'.tensorMap k = mapFind stP.tensorMap k)) :=
  claim_C7_output_arity regRelu reluNode stP
    (fun _ operands _ => operands) [T0] [] rfl (by decide) rfl

/-- C9: an Operator node with a resolvable builder but an input edge whose
key (after any redirection) was never registered fails with
DependencyNotFound, and a Result node whose producer key was never registered
fails with DependencyNotFound. -/
theorem claim_C9_dependency_not_found :
    (∀ (registry : Registry) (node : Node) (st : BuilderState) (op : Op),
      registry node.description = some op →
      (∃ e ∈ node.inputs,
        resolveDep st (e.srcName, e.index) = .error .dependencyNotFound) →
      handleOp registry node st = .error .dependencyNotFound) ∧
    (∀ (netOut : List (String × TensorDesc)) (node : Node) (st : BuilderState)
      (src : OutputRef) (desc : TensorDesc),
      node.inputs.head? = some src →
      mapFind netOut (outputName src) = some desc →
      mapFind st.tensorMap (src.srcName, src.index) = none →
      handleOutput netOut node st = .error .dependencyNotFound) := by
  constructor
  · intro registry node st op hop hbad
    have hmap := mapExcept_fixed_error
      (fun input => resolveDep st (input.srcName, input.index))
      .dependencyNotFound
      (fun x => resolveDep_ok_or_missing st (x.srcName, x.index))
      node.inputs hbad
    rw [handleOp_resolved registry node st op hop, hmap, excBindErr]
  · intro netOut node st src desc hsrc hdesc hnone
    have h1 : headInput node = .ok src := by
      unfold headInput
      rw [hsrc]
    have h2 : findIODesc netOut (outputName src) = .ok desc := by
      unfold findIODesc
      rw [hdesc]
    have h3 : findProducer st (src.srcName, src.index) =
        .error .dependencyNotFound := by
      unfold findProducer
      rw [hnone]
    unfold handleOutput
    rw [h1]
    simp only [excBindOk]
    rw [h2]
    simp only [excBindOk]
    rw [h3]
    simp only [excBindErr]

/-- Witness for C9: the empty builder state resolves nothing, so both the
Relu consumer of `(p, 0)` and the Result consumer of `(p, 0)` fail with
DependencyNotFound. -/
theorem claim_C9_witness :
    handleOp regRelu reluNode initState = .error .dependencyNotFound ∧
    handleOutput [("in0", descIn)] resultNode initState =
      .error .dependencyNotFound :=
  ⟨claim_C9_dependency_not_found.1 regRelu reluNode initState
      (fun _ operands _ => operands) rfl ⟨depRef, by decide, by decide⟩,
    claim_C9_dependency_not_found.2 [("in0", descIn)] resultNode initState
      depRef descIn rfl (by decide) rfl⟩

/-- C5: for a Result node whose producer key resolves and whose derived name
is declared by the host, the binding name is the producer's alias with the
slot index appended as ".index" exactly when the producer has more than one
output slot; the bound handle's dtype always equals the host-declared
precision, the handle is the resolved tensor itself when its dtype already
matches, and is a strictly distinct explicit cast of it otherwise. -/
theorem claim_C5_output_binding (netOut : List (String × TensorDesc))
    (node : Node) (st : BuilderState) (src : OutputRef) (desc : TensorDesc)
    (t : Tensor)
    (hsrc : node.inputs.head? = some src)
    (hdesc : mapFind netOut (outputName src) = some desc)
    (ht : mapFind st.tensorMap (src.srcName, src.index) = some t) :
    outputName src = (if src.srcOutputSize > 1 then
      src.srcFriendly ++ "." ++ toString src.index else src.srcFriendly) ∧
    ∃ bound,
      handleOutput netOut node st = .ok { st with
        tensorIONameMap := mapInsert st.tensorIONameMap (outputName src) bound } ∧
      mapFind (mapInsert st.tensorIONameMap (outputName src) bound)
        (outputName src) = some bound ∧
      bound.dtype = desc.precision ∧
      (t.dtype = desc.precision → bound = t) ∧
      (t.dtype ≠ desc.precision →
        bound = Tensor.cast t desc.precision ∧ bound ≠ t) := by
  have h1 : headInput node = .ok src := by
    unfold headInput
    rw [hsrc]
  have h2 : findIODesc netOut (outputName src) = .ok desc := by
    unfold findIODesc
    rw [hdesc]
  have h3 : findProducer st (src.srcName, src.index) = .ok t := by
    unfold findProducer
    rw [ht]
  refine ⟨rfl, if desc.precision = t.dtype then t else Tensor.cast t desc.precision,
    ?_, mapFind_insert_self _ _ _, ?_, ?_, ?_⟩
  · unfold handleOutput
    rw [h1]
    simp only [excBindOk]
    rw [h2]
    simp only [excBindOk]
    rw [h3]
    simp only [excBindOk]
  · by_cases hdt : desc.precision = t.dtype
    · rw [if_pos hdt, hdt]
    · rw [if_neg hdt]
      rfl
  · intro hdt
    rw [if_pos hdt.symm]
  · intro hdt
    have hdt' : ¬desc.precision = t.dtype := fun hc => hdt hc.symm
    rw [if_neg hdt']
    exact ⟨rfl, cast_ne t desc.precision⟩

/-- Witness for C5: a single-output producer binds under the bare alias with
no cast (types agree); a two-output producer's slot 1 binds under `mm.1`,
and an int32-declared output over a float32 tensor binds a cast whose dtype
is int32. -/
theorem claim_C5_witness :
    (outputName depRef = (if depRef.srcOutputSize > 1 then
      depRef.srcFriendly ++ "." ++ toString depRef.index else depRef.srcFriendly) ∧
    ∃ bound,
      handleOutput [("in0", descIn)] resultNode stP = .ok { stP with
        tensorIONameMap := mapInsert stP.tensorIONameMap (outputName depRef) bound } ∧
      mapFind (mapInsert stP.tensorIONameMap (outputName depRef) bound)
        (outputName depRef) = some bound ∧
      bound.dtype = descIn.precision ∧
      (T0.dtype = descIn.precision → bound = T0) ∧
      (T0.dtype ≠ descIn.precision →
        bound = Tensor.cast T0 descIn.precision ∧ bound ≠ T0)) ∧
    (outputName depRef2 = (if depRef2.srcOutputSize > 1 then
      depRef2.srcFriendly ++ "." ++ toString depRef2.index else depRef2.srcFriendly) ∧
    ∃ bound,
      handleOutput [("mm.1", ⟨[1, 2, 3, 4], .i32⟩)] resultNodeM stM = .ok { stM with
        tensorIONameMap := mapInsert stM.tensorIONameMap (outputName depRef2) bound } ∧
      mapFind (mapInsert stM.tensorIONameMap (outputName depRef2) bound)
        (outputName depRef2) = some bound ∧
      bound.dtype = DType.i32 ∧
      (T0.dtype = DType.i32 → bound = T0) ∧
      (T0.dtype ≠ DType.i32 →
        bound = Tensor.cast T0 DType.i32 ∧ bound ≠ T0)) :=
  ⟨claim_C5_output_binding [("in0", descIn)] resultNode stP depRef descIn T0
      rfl (by decide) (by decide),
    claim_C5_output_binding [("mm.1", ⟨[1, 2, 3, 4], .i32⟩)] resultNodeM stM
      depRef2 ⟨[1, 2, 3, 4], .i32⟩ T0 rfl (by decide) (by decide)⟩

/-- Counterexample for C3: in the network `netPR` the Parameter translator
installs a redirection for key `(p, 0)`, whose redirected handle is the
reordered `reshape` tensor; yet the Result consumer of `(p, 0)` binds the
raw placeholder, which differs from the redirected handle - so not every
consumer resolves through the remap table. -/
theorem claim_C3_counterexample :
    finalState regNone netPR = .ok stPR ∧
    mapFind stPR.updateDependenciesNameMap ("p", 0) = some "p_reordered" ∧
    mapFind stPR.tensorMap ("p_reordered", 0) =
      some (Tensor.reshape T0 [1, 3, 4, 2]) ∧
    mapFind stPR.tensorIONameMap "in0" = some T0 ∧
    T0 ≠ Tensor.reshape T0 [1, 3, 4, 2] := by
  decide

/-- C3 as amended: the Operator translator resolves every operand through the
remap table first - when a redirection is installed for a key, the operand
lookup is exactly the raw-registry lookup of the redirected key - while the
Output translator resolves the raw registry entry directly and binds it even
when a redirection for the consumed key exists. -/
theorem claim_C3_amended :
    (∀ (st : BuilderState) (dep : String × Nat) (n' : String),
      mapFind st.updateDependenciesNameMap dep = some n' →
      resolveDep st dep = findProducer st (n', dep.2)) ∧
    (∀ (netOut : List (String × TensorDesc)) (node : Node) (st : BuilderState)
      (src : OutputRef) (desc : TensorDesc) (t : Tensor) (n' : String),
      node.inputs.head? = some src →
      mapFind netOut (outputName src) = some desc →
      mapFind st.tensorMap (src.srcName, src.index) = some t →
      mapFind st.updateDependenciesNameMap (src.srcName, src.index) = some n' →
      handleOutput netOut node st = .ok { st with
        tensorIONameMap := mapInsert st.tensorIONameMap (outputName src)
          (if desc.precision = t.dtype then t
            else Tensor.cast t desc.precision) }) := by
  constructor
  · intro st dep n' h
    unfold resolveDep findProducer redirectKey
    rw [h]
  · intro netOut node st src desc t n' hsrc hdesc ht _
    have h1 : headInput node = .ok src := by
      unfold headInput
      rw [hsrc]
    have h2 : findIODesc netOut (outputName src) = .ok desc := by
      unfold findIODesc
      rw [hdesc]
    have h3 : findProducer st (src.srcName, src.index) = .ok t := by
      unfold findProducer
      rw [ht]
    unfold handleOutput
    rw [h1]
    simp only [excBindOk]
    rw [h2]
    simp only [excBindOk]
    rw [h3]
    simp only [excBindOk]

/-- Witness for C3 (amended): in the traversed `netPR` state, the operator
resolution of the redirected key `(p, 0)` equals the raw lookup of
`(p_reordered, 0)`, while the Output translator re-binds the raw placeholder
for `in0` despite the installed redirection. -/
theorem claim_C3_witness :
    resolveDep stPR ("p", 0) = findProducer stPR ("p_reordered", 0) ∧
    handleOutput [("in0", descIn)] resultNode stPR = .ok { stPR with
      tensorIONameMap := mapInsert stPR.tensorIONameMap (outputName depRef)
        (if descIn.precision = T0.dtype then T0
          else Tensor.cast T0 descIn.precision) } :=
  ⟨claim_C3_amended.1 stPR ("p", 0) "p_reordered" (by decide),
    claim_C3_amended.2 [("in0", descIn)] resultNode stPR depRef descIn T0
      "p_reordered" rfl (by decide) (by decide) (by decide)⟩

theorem handleConstant_run (node : Node) (st : BuilderState)
    (hd : node.description = "Constant") (ho : node.outputSize = 1)
    (hlen : node.data.length = node.shape.prod * node.elementType.byteWidth) :
    handleConstant node st =
      (reorderConstDims (node.shape.map Int.ofNat) node.users >>= fun reordered =>
        .ok { st with
          tensorMap := mapInsert
            (mapInsert st.tensorMap (node.name, 0)
              (Tensor.constant node.elementType (node.shape.map Int.ofNat)
                node.data node.friendlyName))
            (node.name ++ "_reordered", 0)
            (Tensor.reshape
              (Tensor.constant node.elementType (node.shape.map Int.ofNat)
                node.data node.friendlyName) reordered)
          updateDependenciesNameMap :=
            mapInsert st.updateDependenciesNameMap (node.name, 0)
              (node.name ++ "_reordered") }) := by
  unfold handleConstant
  split
  next h => exact absurd ho h
  next _ =>
    split
    next h => exact absurd hd h
    next _ =>
      split
      next h => exact absurd hlen h
      next _ => rfl

/-- C2: for a Constant node, a byte buffer whose length differs from the
shape/type product fails with ShapeMismatch, and on success the buffer length
matches the product and the tensor registered under `(node name, 0)` embeds
exactly the node's bytes. -/
theorem claim_C2_literal_buffer (node : Node) (st : BuilderState)
    (hd : node.description = "Constant") (ho : node.outputSize = 1) :
    (node.data.length ≠ node.shape.prod * node.elementType.byteWidth →
      handleConstant node st = .error .shapeMismatch) ∧
    (∀ st', handleConstant node st = .ok st' →
      node.data.length = node.shape.prod * node.elementType.byteWidth ∧
      mapFind st'.tensorMap (node.name, 0) =
        some (Tensor.constant node.elementType (node.shape.map Int.ofNat)
          node.data node.friendlyName)) := by
  have herr : node.data.length ≠ node.shape.prod * node.elementType.byteWidth →
      handleConstant node st = .error .shapeMismatch := by
    intro hne
    unfold handleConstant
    split_ifs with h1 h2
    · exact absurd ho h1
    · exact absurd hd h2
    · rfl
  refine ⟨herr, ?_⟩
  intro st' hok
  by_cases hlen : node.data.length = node.shape.prod * node.elementType.byteWidth
  · refine ⟨hlen, ?_⟩
    rw [handleConstant_run node st hd ho hlen] at hok
    cases hr : reorderConstDims (node.shape.map Int.ofNat) node.users with
    | error e =>
      rw [hr, excBindErr] at hok
      exact Except.noConfusion hok
    | ok rd =>
      rw [hr, excBindOk] at hok
      cases hok
      have hne : (node.name, 0) ≠ (node.name ++ "_reordered", (0 : Nat)) :=
        fun hc => ne_append_reordered node.name (congrArg Prod.fst hc)
      rw [show BuilderState.tensorMap _ = mapInsert
          (mapInsert st.tensorMap (node.name, 0)
            (Tensor.constant node.elementType (node.shape.map Int.ofNat)
              node.data node.friendlyName))
          (node.name ++ "_reordered", 0)
          (Tensor.reshape
            (Tensor.constant node.elementType (node.shape.map Int.ofNat)
              node.data node.friendlyName) rd) from rfl]
      rw [mapFind_insert_ne _ _ _ _ hne, mapFind_insert_self]
  · rw [herr hlen] at hok
    exact Except.noConfusion hok

/-- Witness for C2: the one-byte buffer of `constBad` fails with
ShapeMismatch; the two-byte buffer of `constGood` is registered bit-for-bit
under `(c, 0)`. -/
theorem claim_C2_witness :
    handleConstant constBad initState = .error .shapeMismatch ∧
    (constGood.data.length =
      constGood.shape.prod * constGood.elementType.byteWidth ∧
      mapFind stCG.tensorMap (constGood.name, 0) =
        some (Tensor.constant constGood.elementType
          (constGood.shape.map Int.ofNat) constGood.data
          constGood.friendlyName)) :=
  ⟨(claim_C2_literal_buffer constBad initState rfl rfl).1 (by decide),
    (claim_C2_literal_buffer constGood initState rfl rfl).2 stCG (by decide)⟩

/-- Counterexample for C4: for the Convolution-consuming literal of shape
`[2, 3, 4, 5]` (output-channel 2 first, input-channel 3 second in the
declared OIHW layout) the code reorders to `[4, 5, 3, 2]`: the first entry
is not the output-channel dimension and the last entry is not the
input-channel dimension, contradicting the claimed
"input-channel last, output-channel first" convolution rule. -/
theorem claim_C4_counterexample :
    reorderConstDims [2, 3, 4, 5] ["Convolution"] = .ok [4, 5, 3, 2] ∧
    ([4, 5, 3, 2] : List Int).head? ≠ some 2 ∧
    ([4, 5, 3, 2] : List Int).getLast? ≠ some 3 := by
  decide

/-- C4 as amended: for a rank-4 literal `[o, i, h, w]`, a
Convolution-consuming literal is reordered to `[h, w, i, o]` (spatial
dimensions first, then input-channel, with the output-channel dimension
last); a ReduceMean- or Reshape-consuming literal is flattened to
`[1, 1, 1, 2048]` with the hardcoded trailing constant; a MatMul-consuming
literal swaps its two leading dimensions, giving `[i, o, 1, 1]`. -/
theorem claim_C4_amended (o i h w : Int) (users : List String) (u : String)
    (hu : users.head? = some u) :
    (u = "Convolution" →
      reorderConstDims [o, i, h, w] users = .ok [h, w, i, o]) ∧
    ((u = "ReduceMean" ∨ u = "Reshape") →
      reorderConstDims [o, i, h, w] users = .ok [1, 1, 1, 2048]) ∧
    (u = "MatMul" →
      reorderConstDims [o, i, h, w] users = .ok [i, o, 1, 1]) := by
  have hfu : firstUser users = .ok u := by
    unfold firstUser
    rw [hu]
  refine ⟨?_, ?_, ?_⟩
  · rintro rfl
    unfold reorderConstDims
    rw [show vecIdx [o, i, h, w] 0 = .ok o from rfl, excBindOk,
      show vecIdx [o, i, h, w] 2 = .ok h from rfl, excBindOk,
      show vecIdx [o, i, h, w] 3 = .ok w from rfl, excBindOk,
      show vecIdx [o, i, h, w] 1 = .ok i from rfl, excBindOk, hfu, excBindOk]
    simp
  · rintro (rfl | rfl) <;>
      (unfold reorderConstDims
       rw [show vecIdx [o, i, h, w] 0 = .ok o from rfl, excBindOk,
         show vecIdx [o, i, h, w] 2 = .ok h from rfl, excBindOk,
         show vecIdx [o, i, h, w] 3 = .ok w from rfl, excBindOk,
         show vecIdx [o, i, h, w] 1 = .ok i from rfl, excBindOk, hfu, excBindOk]
       simp)
  · rintro rfl
    unfold reorderConstDims
    rw [show vecIdx [o, i, h, w] 0 = .ok o from rfl, excBindOk,
      show vecIdx [o, i, h, w] 2 = .ok h from rfl, excBindOk,
      show vecIdx [o, i, h, w] 3 = .ok w from rfl, excBindOk,
      show vecIdx [o, i, h, w] 1 = .ok i from rfl, excBindOk, hfu, excBindOk]
    simp

/-- Witness for C4 (amended): the three reorder rules evaluated on the
rank-4 shape `[2, 3, 4, 5]`. -/
theorem claim_C4_witness :
    (("Convolution" : String) = "Convolution" →
      reorderConstDims [2, 3, 4, 5] ["Convolution"] = .ok [4, 5, 3, 2]) ∧
    ((("Convolution" : String) = "ReduceMean" ∨
      ("Convolution" : String) = "Reshape") →
      reorderConstDims [2, 3, 4, 5] ["Convolution"] = .ok [1, 1, 1, 2048]) ∧
    (("Convolution" : String) = "MatMul" →
      reorderConstDims [2, 3, 4, 5] ["Convolution"] = .ok [3, 2, 1, 1]) :=
  claim_C4_amended 2 3 4 5 ["Convolution"] "Convolution" rfl

/-- C10: the Literal translator hits an out-of-bounds vector access - the
model's distinguished undefinedBehavior outcome, not any taxonomy error -
whenever the constant's rank is below 4, and likewise (via the unguarded
first-consumer dereference) whenever a rank-4-or-more constant has no
consumers; the Input translator hits the same outcome whenever the
host-declared descriptor of the parameter has rank below 4. -/
theorem claim_C10_rank_preconditions :
    (∀ (node : Node) (st : BuilderState),
      node.description = "Constant" → node.outputSize = 1 →
      node.data.length = node.shape.prod * node.elementType.byteWidth →
      node.shape.length < 4 →
      handleConstant node st = .error .undefinedBehavior) ∧
    (∀ (node : Node) (st : BuilderState),
      node.description = "Constant" → node.outputSize = 1 →
      node.data.length = node.shape.prod * node.elementType.byteWidth →
      4 ≤ node.shape.length → node.users = [] →
      handleConstant node st = .error .undefinedBehavior) ∧
    (∀ (netIn : List (String × TensorDesc)) (node : Node) (st : BuilderState)
      (desc : TensorDesc),
      node.outputSize = 1 →
      mapFind netIn node.friendlyName = some desc →
      desc.dims.length < 4 →
      handleParameter netIn node st = .error .undefinedBehavior) := by
  refine ⟨?_, ?_, ?_⟩
  · intro node st hd ho hlen hrank
    rw [handleConstant_run node st hd ho hlen]
    have hre : reorderConstDims (node.shape.map Int.ofNat) node.users =
        .error .undefinedBehavior := by
      rcases hs : node.shape with _ | ⟨a, _ | ⟨b, _ | ⟨c, _ | ⟨d, rest⟩⟩⟩⟩
      · rfl
      · rfl
      · rfl
      · rfl
      · rw [hs] at hrank
        simp at hrank
        omega
    rw [hre, excBindErr]
  · intro node st hd ho hlen hrank husers
    rw [handleConstant_run node st hd ho hlen]
    have hre : reorderConstDims (node.shape.map Int.ofNat) node.users =
        .error .undefinedBehavior := by
      rw [husers]
      rcases hs : node.shape with _ | ⟨a, _ | ⟨b, _ | ⟨c, _ | ⟨d, rest⟩⟩⟩⟩ <;>
        rw [hs] at hrank
      · simp at hrank
      · simp at hrank
      · simp at hrank
      · simp at hrank
      · rfl
    rw [hre, excBindErr]
  · intro netIn node st desc ho hdesc hrank
    unfold handleParameter
    rw [if_neg (fun hc => hc ho)]
    rw [show findIODesc netIn node.friendlyName = .ok desc from by
      unfold findIODesc
      rw [hdesc]]
    simp only [excBindOk]
    obtain ⟨ddims, dprec⟩ := desc
    rcases hdims : ddims with _ | ⟨a, _ | ⟨b, _ | ⟨c, _ | ⟨d, rest⟩⟩⟩⟩ <;>
      rw [hdims] at hrank
    · rfl
    · rfl
    · rfl
    · rfl
    · simp at hrank
      omega

/-- Witness for C10: the rank-2 constant, the consumer-less rank-4 constant,
and the rank-2 parameter each produce the undefined-behavior outcome. -/
theorem claim_C10_witness :
    handleConstant constRank2 initState = .error .undefinedBehavior ∧
    handleConstant constNoUser initState = .error .undefinedBehavior ∧
    handleParameter [("in2", descRank2)] paramRank2 initState =
      .error .undefinedBehavior :=
  ⟨claim_C10_rank_preconditions.1 constRank2 initState rfl rfl (by decide)
      (by decide),
    claim_C10_rank_preconditions.2.1 constNoUser initState rfl rfl (by decide)
      (by decide) rfl,
    claim_C10_rank_preconditions.2.2 [("in2", descRank2)] paramRank2 initState
      descRank2 rfl (by decide) (by decide)⟩

/-- C6: for a Parameter node with a rank-4-or-more host descriptor, the
translator succeeds; the I/O binding table holds the original placeholder at
the host-declared precision under the friendly name, the registry entry
`(node name, 0)` holds the converted handle - equal to the placeholder when
the graph-declared type matches the host-declared one, a strictly distinct
cast at the graph-declared type otherwise - and an operator-style resolve of
`(node name, 0)` yields a reorder of that converted handle. -/
theorem claim_C6_parameter_types (netIn : List (String × TensorDesc))
    (node : Node) (st : BuilderState) (desc : TensorDesc) (T C : Tensor)
    (ho : node.outputSize = 1)
    (hdesc : mapFind netIn node.friendlyName = some desc)
    (hrank : 4 ≤ desc.dims.length)
    (hT : T = Tensor.placeholder desc.precision (desc.dims.map Int.ofNat)
      node.friendlyName)
    (hC : C = if node.elementType ≠ desc.precision then
      Tensor.cast T node.elementType else T) :
    ∃ st', handleParameter netIn node st = .ok st' ∧
      mapFind st'.tensorIONameMap node.friendlyName = some T ∧
      T.dtype = desc.precision ∧
      mapFind st'.tensorMap (node.name, 0) = some C ∧
      (node.elementType = desc.precision → C = T) ∧
      (node.elementType ≠ desc.precision →
        C = Tensor.cast T node.elementType ∧ C ≠ T ∧
        C.dtype = node.elementType) ∧
      (∃ rdims, resolveDep st' (node.name, 0) =
        .ok (Tensor.reshape C rdims)) := by
  obtain ⟨ddims, dprec⟩ := desc
  rcases hdims : ddims with _ | ⟨a, _ | ⟨b, _ | ⟨c, _ | ⟨d, rest⟩⟩⟩⟩ <;>
    rw [hdims] at hrank
  · simp at hrank
  · simp at hrank
  · simp at hrank
  · simp at hrank
  subst hdims
  subst hT
  subst hC
  refine ⟨⟨mapInsert
      (mapInsert st.tensorMap (node.name, 0)
        (if node.elementType ≠ dprec then
          Tensor.cast (Tensor.placeholder dprec
            ((a :: b :: c :: d :: rest).map Int.ofNat) node.friendlyName)
            node.elementType
        else Tensor.placeholder dprec
          ((a :: b :: c :: d :: rest).map Int.ofNat) node.friendlyName))
      (node.name ++ "_reordered", 0)
      (Tensor.reshape
        (if node.elementType ≠ dprec then
          Tensor.cast (Tensor.placeholder dprec
            ((a :: b :: c :: d :: rest).map Int.ofNat) node.friendlyName)
            node.elementType
        else Tensor.placeholder dprec
          ((a :: b :: c :: d :: rest).map Int.ofNat) node.friendlyName)
        [Int.ofNat a, Int.ofNat c, Int.ofNat d, Int.ofNat b]),
    mapInsert st.tensorIONameMap node.friendlyName
      (Tensor.placeholder dprec ((a :: b :: c :: d :: rest).map Int.ofNat)
        node.friendlyName),
    mapInsert st.updateDependenciesNameMap (node.name, 0)
      (node.name ++ "_reordered")⟩, ?_, ?_, rfl, ?_, ?_, ?_, ?_⟩
  · unfold handleParameter
    rw [if_neg (fun hc => hc ho)]
    rw [show findIODesc netIn node.friendlyName =
        .ok ⟨a :: b :: c :: d :: rest, dprec⟩ from by
      unfold findIODesc
      rw [hdesc]]
    rfl
  · exact mapFind_insert_self _ _ _
  · have hne : (node.name, 0) ≠ (node.name ++ "_reordered", (0 : Nat)) :=
      fun hc => ne_append_reordered node.name (congrArg Prod.fst hc)
    rw [show BuilderState.tensorMap _ = mapInsert
        (mapInsert st.tensorMap (node.name, 0) _)
        (node.name ++ "_reordered", 0) _ from rfl]
    rw [mapFind_insert_ne _ _ _ _ hne, mapFind_insert_self]
  · intro h
    rw [if_neg (fun hc => hc h)]
  · intro h
    rw [if_pos h]
    exact ⟨rfl, cast_ne _ _, rfl⟩
  · refine ⟨[Int.ofNat a, Int.ofNat c, Int.ofNat d, Int.ofNat b], ?_⟩
    unfold resolveDep redirectKey
    simp only [mapFind_insert_self]

/-- Witness for C6: the f16-typed Parameter over the f32-declared host input
registers the cast handle while binding the raw f32 placeholder. -/
theorem claim_C6_witness :
    ∃ st', handleParameter [("in0", descIn)] paramNodeCast initState = .ok st' ∧
      mapFind st'.tensorIONameMap paramNodeCast.friendlyName = some T0 ∧
      T0.dtype = descIn.precision ∧
      mapFind st'.tensorMap (paramNodeCast.name, 0) =
        some (Tensor.cast T0 .f16) ∧
      (paramNodeCast.elementType = descIn.precision →
        Tensor.cast T0 .f16 = T0) ∧
      (paramNodeCast.elementType ≠ descIn.precision →
        Tensor.cast T0 .f16 = Tensor.cast T0 paramNodeCast.elementType ∧
        Tensor.cast T0 .f16 ≠ T0 ∧
        (Tensor.cast T0 .f16).dtype = paramNodeCast.elementType) ∧
      (∃ rdims, resolveDep st' (paramNodeCast.name, 0) =
        .ok (Tensor.reshape (Tensor.cast T0 .f16) rdims)) :=
  claim_C6_parameter_types [("in0", descIn)] paramNodeCast initState descIn
    T0 (Tensor.cast T0 .f16) rfl (by decide) (by decide) (by decide) (by decide)

theorem bindIOName_ok (io : List (String × Tensor)) (name : String) (t : Tensor) :
    bindIOName io name = .ok t ↔ mapFind io name = some t := by
  unfold bindIOName
  cases h : mapFind io name with
  | none =>
    constructor
    · intro hh
      exact Except.noConfusion hh
    · intro hh
      exact Option.noConfusion hh
  | some t' =>
    constructor
    · intro hh
      injection hh with hh
      rw [hh]
    · intro hh
      injection hh with hh
      rw [hh]

/-- C1: whenever the build succeeds, the program's input list corresponds
position-by-position, in the host's declared order, to the I/O-binding-table
lookups of the declared input names, and likewise the output list to the
declared output names. -/
theorem claim_C1_io_order (registry : Registry) (net : HostNetwork)
    (p : Program) (h : build registry net = .ok p) :
    ∃ st, finalState registry net = .ok st ∧
      List.Forall₂ (fun (kvp : String × TensorDesc) (t : Tensor) =>
        mapFind st.tensorIONameMap kvp.1 = some t) net.networkInputs p.inputs ∧
      List.Forall₂ (fun (kvp : String × TensorDesc) (t : Tensor) =>
        mapFind st.tensorIONameMap kvp.1 = some t) net.networkOutputs p.outputs := by
  unfold build at h
  cases hfs : finalState registry net with
  | error e =>
    rw [hfs, excBindErr] at h
    exact Except.noConfusion h
  | ok st =>
    rw [hfs] at h
    simp only [excBindOk] at h
    cases hi : mapExcept (fun kvp => bindIOName st.tensorIONameMap kvp.1)
        net.networkInputs with
    | error e =>
      rw [hi, excBindErr] at h
      exact Except.noConfusion h
    | ok ins =>
      rw [hi] at h
      simp only [excBindOk] at h
      cases hout : mapExcept (fun kvp => bindIOName st.tensorIONameMap kvp.1)
          net.networkOutputs with
      | error e =>
        rw [hout, excBindErr] at h
        exact Except.noConfusion h
      | ok outs =>
        rw [hout] at h
        simp only [excBindOk] at h
        cases h
        refine ⟨st, rfl, ?_, ?_⟩
        · exact (mapExcept_ok_forall₂ _ _ _ hi).imp
            (fun a b hb => (bindIOName_ok _ _ _).mp hb)
        · exact (mapExcept_ok_forall₂ _ _ _ hout).imp
            (fun a b hb => (bindIOName_ok _ _ _).mp hb)

/-- Witness for C1: the example network binds its declared input and output
name `in0` to the placeholder, in declared order. -/
theorem claim_C1_witness :
    ∃ st, finalState regNone netPR = .ok st ∧
      List.Forall₂ (fun (kvp : String × TensorDesc) (t : Tensor) =>
        mapFind st.tensorIONameMap kvp.1 = some t) netPR.networkInputs
        (Program.mk "ie" [T0] [T0]).inputs ∧
      List.Forall₂ (fun (kvp : String × TensorDesc) (t : Tensor) =>
        mapFind st.tensorIONameMap kvp.1 = some t) netPR.networkOutputs
        (Program.mk "ie" [T0] [T0]).outputs :=
  claim_C1_io_order regNone netPR (Program.mk "ie" [T0] [T0]) (by decide)

end PlaidMLPlugin
